import Mathlib

/-!
Verification of the `MolViewEditor` component (src/unnamed/part_000) of
molstar/molstar-components.

The component is a Preact wrapper around the Monaco editor.  Its behaviour is
given by three effects:

* the environment-registrar effect (lines 100-123): registers the
  "javascript" language with the Monaco language registry, installs a Monarch
  tokenizer and a language configuration for it, all inside a try/catch, and
  installs a process-wide `MonacoEnvironment` worker-resolution object guarded
  by a presence check;
* the main mount effect (lines 125-267): installs a capturing document-level
  keydown listener, creates a text model at the fixed URI `file:///main.js`,
  creates the editor widget on that model, registers a Ctrl/Cmd+S command and a
  content-change subscription (both capturing the host callbacks of the render
  in which the effect ran), schedules a delayed re-validation nudge, and on
  cleanup removes the listener, disposes the widget and clears the reference;
* the update effect (lines 270-277): while ready, replaces the document text
  wholesale with a changed `initialCode` prop value.

The embedding models the Monaco surface the component touches.  Facts about
Monaco itself (an external dependency, not part of this repository) are
modelled from monaco-editor's documented semantics and are marked as such at
their definitions; the two that matter are that `createModel` throws when a
model with the requested URI already exists, and that disposing an editor that
was created with an explicitly supplied model does not dispose that model.

Host callbacks are represented by numeric identifiers; an invocation of a
callback is recorded as a `HostCall` value in an output list rather than
executed.
-/

namespace MolstarComponents

/-! ## Environment Registrar (part_000 lines 100-123) -/

/-- Process-wide Monaco global state touched by the registrar effect:
the language registry, the set of languages with an installed Monarch
tokenizer, the set of languages with an installed language configuration, and
whether the `window.MonacoEnvironment` worker-resolution object is installed. -/
structure GlobalEnv where
  registeredLanguages : List String
  tokenizerProviders : List String
  languageConfigs : List String
  monacoEnvironmentSet : Bool
deriving DecidableEq, Repr

/-- The global state at process start: nothing registered. -/
def GlobalEnv.initial : GlobalEnv :=
  { registeredLanguages := []
    tokenizerProviders := []
    languageConfigs := []
    monacoEnvironmentSet := false }

/-- `getWorkerUrl` installed into `MonacoEnvironment` (lines 114-120): the
typescript/javascript label resolves to the typescript worker bundle, any
other label to the default editor worker bundle. -/
def getWorkerUrl (label : String) : String :=
  if label == "typescript" || label == "javascript" then "./ts.worker.js"
  else "./editor.worker.js"

/-- Modelled from monaco-editor semantics: registering a language.  The
source wraps this call in a try/catch whose log message is "JavaScript
language already registered or error"; we model the defended-against failure
mode by raising an already-registered error on a duplicate id, so that the
catch in `registrarEffect` is what keeps a remount from failing. -/
def registerLanguage (env : GlobalEnv) (id : String) : Except String GlobalEnv :=
  if env.registeredLanguages.contains id then
    .error "already registered"
  else
    .ok { env with registeredLanguages := id :: env.registeredLanguages }

/-- Modelled from monaco-editor semantics: installing a Monarch tokenizer for
a language replaces any previous provider; recorded as set insertion. -/
def setMonarchTokensProvider (env : GlobalEnv) (id : String) : GlobalEnv :=
  if env.tokenizerProviders.contains id then env
  else { env with tokenizerProviders := id :: env.tokenizerProviders }

/-- Modelled from monaco-editor semantics: installing a language
configuration replaces any previous one; recorded as set insertion. -/
def setLanguageConfiguration (env : GlobalEnv) (id : String) : GlobalEnv :=
  if env.languageConfigs.contains id then env
  else { env with languageConfigs := id :: env.languageConfigs }

/-- The try-block of the registrar effect (lines 102-106): register the
"javascript" language, then install its tokenizer and configuration. -/
def registrarBody (env : GlobalEnv) : Except String GlobalEnv :=
  match registerLanguage env "javascript" with
  | .error e => .error e
  | .ok env1 =>
    .ok (setLanguageConfiguration (setMonarchTokensProvider env1 "javascript") "javascript")

/-- The registrar effect (lines 100-123), run once per mount of the
component: the try/catch around language registration (an error is caught and
logged, leaving the state as it was before the failing call, which throws
before mutating anything), then the `MonacoEnvironment` installation guarded
by `if (!window.MonacoEnvironment)`. -/
def registrarEffect (env : GlobalEnv) : GlobalEnv :=
  let env1 :=
    match registrarBody env with
    | .ok e => e
    | .error _ => env
  if env1.monacoEnvironmentSet then env1
  else { env1 with monacoEnvironmentSet := true }

/-- Whether a mount's registrar effect surfaced an error to the caller:
`none` when the mount did not fail.  The try/catch converts every error of the
try-block into a log line, so the effect never surfaces one. -/
def registrarMountError (env : GlobalEnv) : Option String :=
  match registrarBody env with
  | .ok _ => none
  | .error _ => none

/-- Global state after `n` mounts of the component in one process, each
running the registrar effect. -/
def registrarAfterMounts : Nat → GlobalEnv
  | 0 => GlobalEnv.initial
  | n + 1 => registrarEffect (registrarAfterMounts n)

/-! ## Editor Session Controller: data model -/

/-- A Monaco text model: the URI identity it was created under, its current
text buffer, and its language tag (part_000 lines 184-188 create one with the
initial code, language "javascript" and URI `file:///main.js`). -/
structure TextModel where
  uri : String
  text : String
  languageId : String
deriving DecidableEq, Repr

/-- A Monaco editor widget as the component uses it: the URI of the model it
is attached to (`none` once disposed, matching `editor.getModel()` returning
null), the host save callback captured by the `editor.addCommand` closure
(lines 239-243), the host change callback captured by the
`editor.onDidChangeModelContent` closure (lines 246-250), and whether the
widget has been disposed.  Host callbacks are numeric identifiers. -/
structure EditorInstance where
  eid : Nat
  attachedModel : Option String
  saveCommand : Option Nat
  changeSubscription : Option Nat
  disposed : Bool
deriving DecidableEq, Repr

/-- State owned by (or reachable from) one mounted `MolViewEditor`:
the Monaco model service's models, every editor widget created so far
(closures such as the scheduled nudge keep references to disposed ones),
`editorRef.current`, the `isReady` flag, the capturing document-level keydown
listener (its payload is the `onSave` prop captured by the effect closure),
the editor ids with a scheduled re-validation timeout, and a fresh-id
counter. -/
structure CompState where
  models : List TextModel
  editors : List EditorInstance
  editorRef : Option Nat
  isReady : Bool
  keyListener : Option (Option Nat)
  pendingNudges : List Nat
  nextEid : Nat
deriving DecidableEq, Repr

/-- The state before any mount: no models, no editors, no listener. -/
def CompState.empty : CompState :=
  { models := []
    editors := []
    editorRef := none
    isReady := false
    keyListener := none
    pendingNudges := []
    nextEid := 0 }

/-- The props of `MolViewEditor` that drive behaviour (height is visual
only): the initial code and the two optional host callbacks. -/
structure Props where
  initialCode : String
  onCodeChange : Option Nat
  onSave : Option Nat
deriving DecidableEq, Repr

/-- An observable invocation of a host callback. -/
inductive HostCall where
  | codeChange (cb : Nat) (text : String)
  | save (cb : Nat) (text : String)
deriving DecidableEq, Repr

/-- Modelled from monaco-editor semantics: `monaco.editor.createModel` with
an explicit URI throws when the model service already holds a model at that
URI ("ModelService: Cannot add model because it already exists!"). -/
def createModel (models : List TextModel) (text langId uri : String) :
    Except String (List TextModel) :=
  if models.any (fun m => m.uri == uri) then
    .error "ModelService: Cannot add model because it already exists!"
  else
    .ok ({ uri := uri, text := text, languageId := langId } :: models)

/-- Text of the model stored at `uri`, if any. -/
def modelText (models : List TextModel) (uri : String) : Option String :=
  (models.find? (fun m => m.uri == uri)).map (fun m => m.text)

/-- `editor.getValue()` for the editor with id `eid`: follows the attached
model to the model service.  `none` when the editor is gone or disposed. -/
def CompState.getValue (s : CompState) (eid : Nat) : Option String :=
  match s.editors.find? (fun e => e.eid == eid) with
  | none => none
  | some e =>
    match e.attachedModel with
    | none => none
    | some uri => modelText s.models uri

/-- Rewriting the text of the model stored at `uri` by `f`, leaving every
other model untouched. -/
def updateModels (ms : List TextModel) (uri : String) (f : String → String) :
    List TextModel :=
  ms.map fun m => if m.uri == uri then { m with text := f m.text } else m

/-- An accepted edit on the model attached to editor `eid`: the model's text
is rewritten by `f`, and the editor's content-change subscription (lines
246-250) fires once, reading `editor.getValue()` — the full text after the
edit — and forwarding it to the captured host change callback. -/
def applyEditorEdit (s : CompState) (eid : Nat) (f : String → String) :
    CompState × List HostCall :=
  match s.editors.find? (fun e => e.eid == eid) with
  | none => (s, [])
  | some e =>
    match e.attachedModel with
    | none => (s, [])
    | some uri =>
      let models := updateModels s.models uri f
      let s1 := { s with models := models }
      let calls :=
        match e.changeSubscription, modelText models uri with
        | some cb, some t => [HostCall.codeChange cb t]
        | _, _ => []
      (s1, calls)

/-! ## Editor Session Controller: effects -/

/-- `initEditor` (lines 147-253): create the model with the initial code,
language "javascript" and the fixed URI `file:///main.js` (propagating the
model service's error if the URI is taken), create the widget on that model,
store it in `editorRef`, register the Ctrl/Cmd+S command and the
content-change subscription capturing the current `onSave` / `onCodeChange`
props, schedule the delayed re-validation nudge, and set `isReady`.  The
compiler-option, diagnostics and completion setup it also performs only
configures the external language service and is not part of this state. -/
def initEditor (props : Props) (s : CompState) : Except String CompState :=
  match createModel s.models props.initialCode "javascript" "file:///main.js" with
  | .error e => .error e
  | .ok models =>
  let editor : EditorInstance :=
    { eid := s.nextEid
      attachedModel := some "file:///main.js"
      saveCommand := props.onSave
      changeSubscription := props.onCodeChange
      disposed := false }
  .ok { s with
    models := models
    editors := s.editors ++ [editor]
    editorRef := some s.nextEid
    pendingNudges := s.pendingNudges ++ [s.nextEid]
    nextEid := s.nextEid + 1
    isReady := true }

/-- The main mount effect (lines 125-258): bail out when the container is not
yet available, otherwise install the capturing document-level keydown
listener (whose closure captures the `onSave` prop) and run `initEditor`.
Returns the resulting state together with the error escaping the effect, if
any; an exception thrown by `initEditor` escapes after the listener was
already installed. -/
def mountEffect (containerAvailable : Bool) (props : Props) (s : CompState) :
    CompState × Option String :=
  if containerAvailable then
    let s1 := { s with keyListener := some props.onSave }
    match initEditor props s1 with
    | .ok s2 => (s2, none)
    | .error msg => (s1, some msg)
  else (s, none)

/-- Modelled from monaco-editor semantics: `editor.dispose()` marks the
widget disposed and detaches it from its model (`getModel()` returns null
afterwards), but does NOT dispose the model itself — a standalone editor
created with an explicitly supplied model does not own that model, so the
model stays in the model service.  Calling dispose on a missing handle is the
dispose-of-null error. -/
def disposeEditor (s : CompState) (eid : Nat) : Except String CompState :=
  match s.editors.find? (fun e => e.eid == eid) with
  | none => .error "TypeError: cannot read properties of null"
  | some _ =>
    .ok { s with editors := s.editors.map fun e =>
      if e.eid == eid then { e with disposed := true, attachedModel := none } else e }

/-- The cleanup of the main mount effect (lines 260-266): remove the
capturing keydown listener, then — only if `editorRef.current` is set —
dispose the widget and clear the reference. -/
def cleanupEffect (s : CompState) : Except String CompState :=
  let s1 := { s with keyListener := none }
  match s1.editorRef with
  | none => .ok s1
  | some eid =>
    match disposeEditor s1 eid with
    | .error e => .error e
    | .ok s2 => .ok { s2 with editorRef := none }

/-- Dispatch of a Ctrl/Cmd+S keydown on the page, with `targetInside` saying
whether the event target (and hence keyboard focus) lies inside the editor
container.  The capturing document-level listener `handleKeyDown` (lines
130-144) runs first; when the target is inside the container it calls
`preventDefault` and `stopPropagation`, so the event never reaches the editor
widget and the `addCommand` binding (lines 239-243) does not fire; the
listener then invokes the captured save callback with `getValue()` when both
the callback and `editorRef.current` are present.  When the target is outside
the container the listener does nothing, and the widget's command cannot fire
because the editor does not have focus.  Without a listener (after unmount)
the command can only fire for a focused, live, referenced editor.  Returns
the unchanged-or-updated state, the host calls made, and whether the browser
default save action was prevented. -/
def dispatchSaveKeydown (s : CompState) (targetInside : Bool) :
    CompState × List HostCall × Bool :=
  match s.keyListener with
  | some capturedOnSave =>
    if targetInside then
      match capturedOnSave, s.editorRef with
      | some cb, some eid =>
        match s.getValue eid with
        | some t => (s, [HostCall.save cb t], true)
        | none => (s, [], true)
      | _, _ => (s, [], true)
    else (s, [], false)
  | none =>
    if targetInside then
      match s.editorRef with
      | some eid =>
        match s.editors.find? (fun e => e.eid == eid) with
        | some e =>
          match e.saveCommand, s.getValue eid with
          | some cb, some t => (s, [HostCall.save cb t], true)
          | _, _ => (s, [], false)
        | none => (s, [], false)
      | none => (s, [], false)
    else (s, [], false)

/-- The update effect (lines 270-277): when the editor reference is set and
the session is ready, compare the new `initialCode` prop against the
document's live text and, only when they differ, replace the text wholesale
with `setValue` — a single accepted edit, so the content-change subscription
fires once through `applyEditorEdit`. -/
def updateEffect (s : CompState) (initialCode : String) : CompState × List HostCall :=
  match s.editorRef, s.isReady with
  | some eid, true =>
    match s.getValue eid with
    | some current =>
      if current == initialCode then (s, [])
      else applyEditorEdit s eid (fun _ => initialCode)
    | none => (s, [])
  | _, _ => (s, [])

/-- The delayed re-validation nudge (lines 227-236) firing for editor `eid`:
the timeout body reads `editor.getModel()` and, only if a model is attached,
triggers a synthetic type-a-space edit followed by an undo, each an accepted
edit firing the content-change subscription.  After the editor was disposed,
`getModel()` is null and the body is a no-op. -/
def nudgeFire (s : CompState) (eid : Nat) : CompState × List HostCall :=
  match s.editors.find? (fun e => e.eid == eid) with
  | none => (s, [])
  | some e =>
    match e.attachedModel with
    | none => (s, [])
    | some _ =>
      let (s1, out1) := applyEditorEdit s eid (fun t => t.push ' ')
      let (s2, out2) := applyEditorEdit s1 eid (fun t => t.dropRight 1)
      (s2, out1 ++ out2)

/-- Typing a text character by character into editor `eid`: each keystroke is
one accepted edit appending the character, each firing the content-change
subscription through `applyEditorEdit`. -/
def typeChars (eid : Nat) : List Char → CompState → CompState × List HostCall
  | [], s => (s, [])
  | c :: cs, s =>
    let (s1, out1) := applyEditorEdit s eid (fun t => t.push c)
    let (s2, out2) := typeChars eid cs s1
    (s2, out1 ++ out2)

/-- An event that can still occur after unmount: a Ctrl/Cmd+S keydown
somewhere on the page, or a lingering re-validation timeout firing. -/
inductive UiEvent where
  | saveKeydown (targetInside : Bool)
  | nudge (eid : Nat)
deriving DecidableEq, Repr

/-- The host calls an event produces in state `s`. -/
def eventCalls (s : CompState) (ev : UiEvent) : List HostCall :=
  match ev with
  | .saveKeydown inside => (dispatchSaveKeydown s inside).2.1
  | .nudge eid => (nudgeFire s eid).2

/-! ## Concrete scenario used by the witnesses and failing runs -/

/-- Concrete props for a first mount: initial code "code A", change callback
1, save callback 2. -/
def props1 : Props :=
  { initialCode := "code A", onCodeChange := some 1, onSave := some 2 }

/-- The same props with a replaced save callback, as supplied by the host to
trigger the main effect's `[onSave]` dependency. -/
def props2 : Props :=
  { initialCode := "code A", onCodeChange := some 1, onSave := some 3 }

/-- State after the first mount of the component with `props1`. -/
def mounted1 : CompState := (mountEffect true props1 CompState.empty).1

/-- Re-running the main effect after the host replaced `onSave`: the cleanup
of the previous run, then the effect with `props2` — exactly what React-style
hooks do when a dependency of the effect changes. -/
def remountRun : CompState × Option String :=
  match cleanupEffect mounted1 with
  | .ok s1 => mountEffect true props2 s1
  | .error msg => (mounted1, some msg)

/-! ## Derived observers used to state the properties -/

/-- `editorRef.current`, when set, actually denotes an existing editor —
true of every state the component can reach, and the sanity condition under
which teardown is examined. -/
def CompState.refValid (s : CompState) : Bool :=
  match s.editorRef with
  | none => true
  | some eid => (s.editors.find? (fun e => e.eid == eid)).isSome

/-- The state cleanup leaves behind when it succeeds (and the input state
when it does not). -/
def cleanupResult (s : CompState) : CompState :=
  match cleanupEffect s with
  | .ok s1 => s1
  | .error _ => s

/-- The change notifications produced by typing a character list at the end
of a document whose text is `t`, with change callback `cb`: one notification
per keystroke, each carrying the full text after that keystroke. -/
def typingCalls (cb : Nat) : List Char → String → List HostCall
  | [], _ => []
  | c :: cs, t => HostCall.codeChange cb (t.push c) :: typingCalls cb cs (t.push c)

/-- The editor instance created by the first mount with `props1`. -/
def editor1 : EditorInstance :=
  { eid := 0
    attachedModel := some "file:///main.js"
    saveCommand := some 2
    changeSubscription := some 1
    disposed := false }

/-- The state left behind by tearing down `mounted1`: listener removed,
widget disposed and detached, reference cleared — and the text model still
sitting in the model service. -/
def tornDown1 : CompState :=
  { models := [{ uri := "file:///main.js", text := "code A", languageId := "javascript" }]
    editors := [{ eid := 0
                  attachedModel := none
                  saveCommand := some 2
                  changeSubscription := some 1
                  disposed := true }]
    editorRef := none
    isReady := true
    keyListener := none
    pendingNudges := [0]
    nextEid := 1 }

/-! ## Registrar lemmas -/

theorem registrarMountError_eq_none (env : GlobalEnv) :
    registrarMountError env = none := by
  unfold registrarMountError
  cases registrarBody env <;> rfl

theorem registrarEffect_fixed (env : GlobalEnv)
    (h1 : "javascript" ∈ env.registeredLanguages)
    (h2 : env.monacoEnvironmentSet = true) :
    registrarEffect env = env := by
  simp [registrarEffect, registrarBody, registerLanguage, h1, h2]

theorem registrarEffect_mem (env : GlobalEnv) :
    "javascript" ∈ (registrarEffect env).registeredLanguages := by
  by_cases h : "javascript" ∈ env.registeredLanguages <;>
    simp [registrarEffect, registrarBody, registerLanguage,
      setLanguageConfiguration, setMonarchTokensProvider, h] <;>
    (repeat' split) <;> simp [h]

theorem registrarEffect_envSet (env : GlobalEnv) :
    (registrarEffect env).monacoEnvironmentSet = true := by
  by_cases h : "javascript" ∈ env.registeredLanguages <;>
    simp [registrarEffect, registrarBody, registerLanguage,
      setLanguageConfiguration, setMonarchTokensProvider, h] <;>
    (repeat' split) <;> simp_all

theorem registrarEffect_idem (env : GlobalEnv) :
    registrarEffect (registrarEffect env) = registrarEffect env :=
  registrarEffect_fixed _ (registrarEffect_mem env) (registrarEffect_envSet env)

/-- C1: across any sequence of `n ≥ 1` mounts/unmounts in one process, the
registrar's registration effect occurs at most once — the global state after
`n` mounts is exactly the state after the very first registrar run — and no
mount surfaces an "already registered" error, neither the first one nor any
later one. -/
theorem registrar_effect_at_most_once (n : Nat) (h : 1 ≤ n) :
    registrarAfterMounts n = registrarEffect GlobalEnv.initial ∧
    registrarMountError (registrarAfterMounts n) = none ∧
    registrarMountError GlobalEnv.initial = none := by
  refine ⟨?_, registrarMountError_eq_none _, registrarMountError_eq_none _⟩
  induction n with
  | zero => omega
  | succ m ih =>
    cases m with
    | zero => rfl
    | succ k =>
      have hm : registrarAfterMounts (k + 1) = registrarEffect GlobalEnv.initial :=
        ih (by omega)
      show registrarEffect (registrarAfterMounts (k + 1)) = registrarEffect GlobalEnv.initial
      rw [hm, registrarEffect_idem]

/-- Witness for C1, at a concrete sequence of three mounts. -/
theorem registrar_effect_at_most_once_witness :
    1 ≤ 3 ∧ (registrarAfterMounts 3 = registrarEffect GlobalEnv.initial ∧
      registrarMountError (registrarAfterMounts 3) = none ∧
      registrarMountError GlobalEnv.initial = none) :=
  ⟨by decide, registrar_effect_at_most_once 3 (by decide)⟩

/-! ## Save gesture -/

/-- C2: in a Ready session (capturing listener installed with a save
callback, editor reference set, live text `t`), a Ctrl/Cmd+S keydown whose
target is inside the editor container invokes the save callback exactly once,
with exactly the live text, leaves the whole state (in particular the
document) unchanged, and prevents the browser default save action.  The
listener's `stopPropagation` is why the widget-level Ctrl/Cmd+S command does
not produce a second invocation. -/
theorem save_inside_container_calls_onSave_once (s : CompState) (cb eid : Nat)
    (t : String)
    (hl : s.keyListener = some (some cb))
    (hr : s.editorRef = some eid)
    (ht : s.getValue eid = some t) :
    dispatchSaveKeydown s true = (s, [HostCall.save cb t], true) := by
  simp [dispatchSaveKeydown, hl, hr, ht]

/-- Witness for C2 on the concrete mounted session. -/
theorem save_inside_container_calls_onSave_once_witness :
    (mounted1.keyListener = some (some 2) ∧ mounted1.editorRef = some 0 ∧
      mounted1.getValue 0 = some "code A") ∧
    dispatchSaveKeydown mounted1 true = (mounted1, [HostCall.save 2 "code A"], true) :=
  ⟨⟨by decide, by decide, by decide⟩,
    save_inside_container_calls_onSave_once mounted1 2 0 "code A"
      (by decide) (by decide) (by decide)⟩

/-- C8: a Ctrl/Cmd+S keydown whose target is outside the editor container
never invokes the save callback (and changes nothing): the capturing listener
ignores it and the widget command cannot fire without focus. -/
theorem save_outside_container_no_call (s : CompState) :
    dispatchSaveKeydown s false = (s, [], false) := by
  cases hkl : s.keyListener <;> simp [dispatchSaveKeydown, hkl]

/-! ## External update reconciliation -/

/-- C4: supplying an `initialCode` value equal to the document's current live
text while Ready performs no replace — the state is unchanged — and fires no
change notification. -/
theorem external_update_same_value_noop (s : CompState) (eid : Nat) (t : String)
    (hr : s.editorRef = some eid) (hready : s.isReady = true)
    (ht : s.getValue eid = some t) :
    updateEffect s t = (s, []) := by
  simp [updateEffect, hr, hready, ht]

/-- Witness for C4 on the concrete mounted session. -/
theorem external_update_same_value_noop_witness :
    (mounted1.editorRef = some 0 ∧ mounted1.isReady = true ∧
      mounted1.getValue 0 = some "code A") ∧
    updateEffect mounted1 "code A" = (mounted1, []) :=
  ⟨⟨by decide, by decide, by decide⟩,
    external_update_same_value_noop mounted1 0 "code A" (by decide) (by decide) (by decide)⟩

/-! ## Edits and change notifications -/

theorem push_append_mk (t : String) (c : Char) (cs : List Char) :
    (t.push c) ++ String.mk cs = t ++ String.mk (c :: cs) := by
  cases t with
  | mk d =>
    show String.mk ((d ++ [c]) ++ cs) = String.mk (d ++ (c :: cs))
    rw [List.append_assoc]
    rfl

theorem append_mk_nil (t : String) : t ++ String.mk [] = t := by
  cases t with
  | mk d =>
    show String.mk (d ++ []) = String.mk d
    rw [List.append_nil]

theorem modelText_updateModels (ms : List TextModel) (uri : String) (f : String → String) :
    modelText (updateModels ms uri f) uri = (modelText ms uri).map f := by
  induction ms with
  | nil => rfl
  | cons m ms ih =>
    by_cases h : m.uri = uri
    · simp [modelText, updateModels, List.find?, h]
    · have hb : (m.uri == uri) = false := by simp [h]
      simpa [modelText, updateModels, List.find?, hb] using ih

/-- An accepted edit on a live, subscribed editor rewrites exactly the
attached model's text and produces exactly one change notification, whose
payload is the full text after the edit. -/
theorem applyEditorEdit_spec (s : CompState) (eid : Nat) (ed : EditorInstance)
    (uri : String) (cb : Nat) (t : String) (f : String → String)
    (he : s.editors.find? (fun e => e.eid == eid) = some ed)
    (hm : ed.attachedModel = some uri)
    (hc : ed.changeSubscription = some cb)
    (ht : modelText s.models uri = some t) :
    applyEditorEdit s eid f =
      ({ s with models := updateModels s.models uri f },
        [HostCall.codeChange cb (f t)]) := by
  simp only [applyEditorEdit, he, hm, hc, modelText_updateModels, ht, Option.map_some']

/-- C3: supplying a changed `initialCode` value `w` while Ready replaces the
document's live text wholesale with `w`, and the replacement is observable
exactly once — the single programmatic edit produces one change notification
carrying `w`. -/
theorem external_update_replaces_text_once (s : CompState) (eid : Nat)
    (ed : EditorInstance) (uri : String) (cb : Nat) (t w : String)
    (he : s.editors.find? (fun e => e.eid == eid) = some ed)
    (hm : ed.attachedModel = some uri)
    (hc : ed.changeSubscription = some cb)
    (hr : s.editorRef = some eid) (hready : s.isReady = true)
    (ht : modelText s.models uri = some t)
    (hne : w ≠ t) :
    (updateEffect s w).1.getValue eid = some w ∧
    (updateEffect s w).2 = [HostCall.codeChange cb w] := by
  have hgv : s.getValue eid = some t := by
    simp [CompState.getValue, he, hm, ht]
  have hne' : ¬ (t = w) := fun hh => hne hh.symm
  have hupdate : updateEffect s w = applyEditorEdit s eid (fun _ => w) := by
    simp [updateEffect, hr, hready, hgv, hne']
  have hspec := applyEditorEdit_spec s eid ed uri cb t (fun _ => w) he hm hc ht
  rw [hupdate, hspec]
  constructor
  · show CompState.getValue _ eid = some w
    simp only [CompState.getValue, he, hm, modelText_updateModels, ht, Option.map_some']
  · rfl

/-- Witness for C3 on the concrete mounted session. -/
theorem external_update_replaces_text_once_witness :
    (mounted1.editors.find? (fun e => e.eid == 0) = some editor1 ∧
      editor1.attachedModel = some "file:///main.js" ∧
      editor1.changeSubscription = some 1 ∧
      mounted1.editorRef = some 0 ∧ mounted1.isReady = true ∧
      modelText mounted1.models "file:///main.js" = some "code A" ∧
      "code B" ≠ "code A") ∧
    ((updateEffect mounted1 "code B").1.getValue 0 = some "code B" ∧
      (updateEffect mounted1 "code B").2 = [HostCall.codeChange 1 "code B"]) :=
  ⟨⟨by decide, by decide, by decide, by decide, by decide, by decide, by decide⟩,
    external_update_replaces_text_once mounted1 0 editor1 "file:///main.js" 1
      "code A" "code B"
      (by decide) (by decide) (by decide) (by decide) (by decide) (by decide) (by decide)⟩

/-- Typing a character list character by character: one notification per
keystroke, each carrying the full text after it, and the document ends at
the original text extended by all typed characters. -/
theorem typeChars_spec (eid : Nat) (cb : Nat) (cs : List Char) :
    ∀ (s : CompState) (ed : EditorInstance) (uri : String) (t : String),
      s.editors.find? (fun e => e.eid == eid) = some ed →
      ed.attachedModel = some uri →
      ed.changeSubscription = some cb →
      modelText s.models uri = some t →
      (typeChars eid cs s).2 = typingCalls cb cs t ∧
      modelText (typeChars eid cs s).1.models uri = some (t ++ String.mk cs) := by
  induction cs with
  | nil =>
    intro s ed uri t he hm hc ht
    refine ⟨rfl, ?_⟩
    rw [append_mk_nil]
    exact ht
  | cons c cs ih =>
    intro s ed uri t he hm hc ht
    have hspec := applyEditorEdit_spec s eid ed uri cb t (fun x => x.push c) he hm hc ht
    have ht1 : modelText (updateModels s.models uri (fun x => x.push c)) uri
        = some (t.push c) := by
      rw [modelText_updateModels, ht]
      rfl
    obtain ⟨h1, h2⟩ := ih { s with models := updateModels s.models uri (fun x => x.push c) }
      ed uri (t.push c) he hm hc ht1
    simp only [typeChars]
    rw [hspec]
    constructor
    · show HostCall.codeChange cb (t.push c) ::
        (typeChars eid cs { s with models := updateModels s.models uri (fun x => x.push c) }).2
        = typingCalls cb (c :: cs) t
      rw [h1]
      rfl
    · show modelText
        (typeChars eid cs
          { s with models := updateModels s.models uri (fun x => x.push c) }).1.models uri
        = some (t ++ String.mk (c :: cs))
      rw [h2, push_append_mk]

theorem typingCalls_getLast (cb : Nat) (cs : List Char) (h : cs ≠ []) :
    ∀ t, (typingCalls cb cs t).getLast?
      = some (HostCall.codeChange cb (t ++ String.mk cs)) := by
  induction cs with
  | nil => exact absurd rfl h
  | cons c cs ih =>
    intro t
    cases cs with
    | nil =>
      show [HostCall.codeChange cb (t.push c)].getLast? = _
      rw [← push_append_mk t c [], append_mk_nil]
      rfl
    | cons c2 cs2 =>
      have h1 : typingCalls cb (c :: c2 :: cs2) t
          = HostCall.codeChange cb (t.push c) :: typingCalls cb (c2 :: cs2) (t.push c) := rfl
      have h2 : typingCalls cb (c2 :: cs2) (t.push c)
          = HostCall.codeChange cb ((t.push c).push c2)
            :: typingCalls cb cs2 ((t.push c).push c2) := rfl
      rw [h1, h2, List.getLast?_cons_cons, ← h2, ih (by simp) (t.push c), push_append_mk]

/-- C7: on a live, subscribed session, any single accepted edit `f` produces
exactly one change notification carrying the full text after the edit (never
a diff fragment), and typing a non-empty character list character by
character produces one full-text notification per keystroke whose final
payload is the document's full final text containing the typed characters. -/
theorem change_notification_carries_full_text (s : CompState) (eid : Nat)
    (ed : EditorInstance) (uri : String) (cb : Nat) (t : String)
    (f : String → String) (cs : List Char)
    (he : s.editors.find? (fun e => e.eid == eid) = some ed)
    (hm : ed.attachedModel = some uri)
    (hc : ed.changeSubscription = some cb)
    (ht : modelText s.models uri = some t)
    (hcs : cs ≠ []) :
    (applyEditorEdit s eid f).2 = [HostCall.codeChange cb (f t)] ∧
    (typeChars eid cs s).2 = typingCalls cb cs t ∧
    (typeChars eid cs s).2.getLast?
      = some (HostCall.codeChange cb (t ++ String.mk cs)) ∧
    modelText (typeChars eid cs s).1.models uri = some (t ++ String.mk cs) := by
  obtain ⟨h1, h2⟩ := typeChars_spec eid cb cs s ed uri t he hm hc ht
  refine ⟨?_, h1, ?_, h2⟩
  · rw [applyEditorEdit_spec s eid ed uri cb t f he hm hc ht]
  · rw [h1, typingCalls_getLast cb cs hcs t]

/-- Witness for C7 on the concrete mounted session: typing "hi". -/
theorem change_notification_carries_full_text_witness :
    (mounted1.editors.find? (fun e => e.eid == 0) = some editor1 ∧
      editor1.attachedModel = some "file:///main.js" ∧
      editor1.changeSubscription = some 1 ∧
      modelText mounted1.models "file:///main.js" = some "code A" ∧
      (['h', 'i'] : List Char) ≠ []) ∧
    ((applyEditorEdit mounted1 0 (fun x => x ++ "X")).2
        = [HostCall.codeChange 1 ("code A" ++ "X")] ∧
      (typeChars 0 ['h', 'i'] mounted1).2 = typingCalls 1 ['h', 'i'] "code A" ∧
      (typeChars 0 ['h', 'i'] mounted1).2.getLast?
        = some (HostCall.codeChange 1 ("code A" ++ String.mk ['h', 'i'])) ∧
      modelText (typeChars 0 ['h', 'i'] mounted1).1.models "file:///main.js"
        = some ("code A" ++ String.mk ['h', 'i'])) :=
  ⟨⟨by decide, by decide, by decide, by decide, by decide⟩,
    change_notification_carries_full_text mounted1 0 editor1 "file:///main.js" 1 "code A"
      (fun x => x ++ "X") ['h', 'i']
      (by decide) (by decide) (by decide) (by decide) (by decide)⟩

/-! ## Teardown -/

theorem cleanupEffect_none (s : CompState) (h : s.editorRef = none) :
    cleanupEffect s = .ok { s with keyListener := none } := by
  unfold cleanupEffect
  dsimp only
  rw [h]

theorem cleanupEffect_some (s : CompState) (eid : Nat) (ed : EditorInstance)
    (h : s.editorRef = some eid)
    (hf : s.editors.find? (fun e => e.eid == eid) = some ed) :
    cleanupEffect s = .ok { s with
      keyListener := none
      editors := s.editors.map fun e =>
        if e.eid == eid then { e with disposed := true, attachedModel := none } else e
      editorRef := none } := by
  unfold cleanupEffect disposeEditor
  dsimp only
  rw [h]
  dsimp only
  rw [hf]

theorem cleanupEffect_missing (s : CompState) (eid : Nat)
    (h : s.editorRef = some eid)
    (hf : s.editors.find? (fun e => e.eid == eid) = none) :
    cleanupEffect s = .error "TypeError: cannot read properties of null" := by
  unfold cleanupEffect disposeEditor
  dsimp only
  rw [h]
  dsimp only
  rw [hf]

/-- A successful teardown of a state whose only non-disposed editor is the
referenced one leaves no listener, no reference, and no editor attached to a
model. -/
theorem cleanup_unmounts (s s' : CompState)
    (hprior : ∀ e ∈ s.editors, s.editorRef = some e.eid ∨ e.attachedModel = none)
    (hclean : cleanupEffect s = .ok s') :
    s'.keyListener = none ∧ s'.editorRef = none ∧
    ∀ e ∈ s'.editors, e.attachedModel = none := by
  rcases href : s.editorRef with _ | eid0
  · rw [cleanupEffect_none s href] at hclean
    injection hclean with hh
    subst hh
    refine ⟨rfl, href, ?_⟩
    intro e he
    rcases hprior e he with h | h
    · rw [href] at h
      exact absurd h (by simp)
    · exact h
  · rcases hfind : s.editors.find? (fun e => e.eid == eid0) with _ | ed0
    · rw [cleanupEffect_missing s eid0 href hfind] at hclean
      exact absurd hclean (by simp)
    · rw [cleanupEffect_some s eid0 ed0 href hfind] at hclean
      injection hclean with hh
      subst hh
      refine ⟨rfl, rfl, ?_⟩
      intro e he
      rcases List.mem_map.mp he with ⟨e0, he0, rfl⟩
      by_cases hb : (e0.eid == eid0) = true
      · simp [hb]
      · rcases hprior e0 he0 with h | h
        · rw [href] at h
          injection h with hh2
          simp [hh2] at hb
        · simp [hb, h]

/-- C6: after a successful unmount teardown, no event whatsoever — a
Ctrl/Cmd+S keydown anywhere, or a lingering re-validation timeout firing for
any editor — produces a host callback invocation; in particular the delayed
nudge firing post-disposal is a safe no-op that leaves the state unchanged
and calls nothing. -/
theorem no_host_calls_after_unmount (s s' : CompState) (ev : UiEvent) (eid : Nat)
    (hprior : ∀ e ∈ s.editors, s.editorRef = some e.eid ∨ e.attachedModel = none)
    (hclean : cleanupEffect s = .ok s') :
    eventCalls s' ev = [] ∧ nudgeFire s' eid = (s', []) := by
  obtain ⟨hkl, href, hatt⟩ := cleanup_unmounts s s' hprior hclean
  have hnudge : ∀ k : Nat, nudgeFire s' k = (s', []) := by
    intro k
    unfold nudgeFire
    rcases hf : s'.editors.find? (fun e => e.eid == k) with _ | e0
    · rw [hf]
    · rw [hf]
      dsimp only
      rw [hatt e0 (List.mem_of_find?_eq_some hf)]
  refine ⟨?_, hnudge eid⟩
  cases ev with
  | saveKeydown inside =>
    show (dispatchSaveKeydown s' inside).2.1 = []
    unfold dispatchSaveKeydown
    rw [hkl]
    cases inside
    · rfl
    · rw [href]
      rfl
  | nudge k =>
    show (nudgeFire s' k).2 = []
    rw [hnudge k]

/-- Witness for C6: the torn-down concrete session, with the lingering nudge
for the editor it created. -/
theorem no_host_calls_after_unmount_witness :
    eventCalls tornDown1 (UiEvent.nudge 0) = [] ∧
    nudgeFire tornDown1 0 = (tornDown1, []) :=
  no_host_calls_after_unmount mounted1 tornDown1 (UiEvent.nudge 0) 0 (by decide) rfl

/-- C9: teardown never throws on a state whose editor reference is sound —
in particular it is a safe no-op on a state where no session was ever
created — and it is idempotent: running it a second time on the state it
produced succeeds and changes nothing further. -/
theorem teardown_safe_and_idempotent (s : CompState) (h : s.refValid = true) :
    cleanupEffect s = .ok (cleanupResult s) ∧
    cleanupEffect (cleanupResult s) = .ok (cleanupResult s) ∧
    cleanupEffect CompState.empty = .ok CompState.empty := by
  have hempty : cleanupEffect CompState.empty = .ok CompState.empty := rfl
  rcases href : s.editorRef with _ | eid0
  · have h1 := cleanupEffect_none s href
    have hres : cleanupResult s = { s with keyListener := none } := by
      unfold cleanupResult
      rw [h1]
    rw [h1, hres]
    refine ⟨rfl, ?_, hempty⟩
    have h2 := cleanupEffect_none { s with keyListener := none } href
    rw [h2]
  · unfold CompState.refValid at h
    rw [href] at h
    dsimp only at h
    rcases hfind : s.editors.find? (fun e => e.eid == eid0) with _ | ed0
    · rw [hfind] at h
      simp at h
    · have h1 := cleanupEffect_some s eid0 ed0 href hfind
      have hres : cleanupResult s = { s with
          keyListener := none
          editors := s.editors.map fun e =>
            if e.eid == eid0 then { e with disposed := true, attachedModel := none } else e
          editorRef := none } := by
        unfold cleanupResult
        rw [h1]
      refine ⟨by rw [h1, hres], ?_, hempty⟩
      rw [hres]
      have h2 := cleanupEffect_none { s with
          keyListener := none
          editors := s.editors.map fun e =>
            if e.eid == eid0 then { e with disposed := true, attachedModel := none } else e
          editorRef := none } rfl
      rw [h2]

/-- Witness for C9: the state in which no session was ever created. -/
theorem teardown_safe_and_idempotent_witness :
    CompState.empty.refValid = true ∧
    (cleanupEffect CompState.empty = .ok (cleanupResult CompState.empty) ∧
      cleanupEffect (cleanupResult CompState.empty) = .ok (cleanupResult CompState.empty) ∧
      cleanupEffect CompState.empty = .ok CompState.empty) :=
  ⟨by decide, teardown_safe_and_idempotent CompState.empty (by decide)⟩

/-- C5, evaluated on the concrete session: teardown removes the capturing
key listener, disposes the widget and clears the internal reference — but
the document model created at mount is NOT destroyed: it still sits in the
model service at `file:///main.js` with its text, because disposing an
editor that was handed its model explicitly does not dispose the model and
the component never calls `model.dispose()`. -/
theorem teardown_keeps_model_alive :
    cleanupEffect mounted1 = .ok tornDown1 ∧
    tornDown1.keyListener = none ∧
    tornDown1.editorRef = none ∧
    tornDown1.editors.all (fun e => e.disposed) = true ∧
    modelText tornDown1.models "file:///main.js" = some "code A" :=
  ⟨rfl, rfl, rfl, rfl, rfl⟩

/-- C10, evaluated at the failing input: after the host replaces `onSave`,
the main effect re-runs — cleanup disposes the widget (but not the model),
then the new `initEditor` calls `createModel` with the same fixed URI
`file:///main.js`, which throws because the previous model was never
disposed.  No replacement session is created: the error escapes the effect
and the editor reference stays empty, while the stale model keeps its old
text. -/
theorem onSave_replacement_remount_fails :
    remountRun.2 = some "ModelService: Cannot add model because it already exists!" ∧
    remountRun.1.editorRef = none ∧
    modelText remountRun.1.models "file:///main.js" = some "code A" :=
  ⟨rfl, rfl, rfl⟩

end MolstarComponents
